import Mathlib

/-!
# Verification of the opus agent orchestration core

Shallow embedding of the agent orchestration subsystem of the `opus`
repository, together with proofs (and refutations) of the specification
claims about it.

Embedded source files:
* `src/opus/error_recovery.py` — `ToolExecutionTracker`
* `src/opus/agent.py` — `OpusAgent.__init__` (sub-agent tool filtering),
  `_execute_single_tool`, `_execute_tool_calls_parallel`
* `src/opus/tools/executor.py` — `ToolExecutor._build_command_array`,
  `_run_command`
* `src/opus/tools/run_subagents.py` — `_prepare_context`,
  `_spawn_subagent`, `execute_run_subagents`
* `src/opus/providers/anthropic_provider.py` — `_convert_messages`,
  `format_assistant_message`, `format_tool_result`
* `src/opus/config.py` — `OpusConfig` (the fields the above use)

Python dictionaries are modelled as insertion-ordered association lists,
machine-independent Python integers as `Int`, and fallible code as
`Except`.  External effects (the file system, URL fetches, the model
backend, the subprocess runner and the human approval prompt) are passed
in explicitly as environment parameters, so that every embedded function
is a pure, executable Lean function.
-/

set_option maxHeartbeats 1000000

namespace Opus

/-! ## A small universe of Python values

Used wherever the source manipulates heterogeneous Python objects
(tool-argument maps, the `args` dict of `run_subagents`, the tool
registry entries).  Equality and truthiness mirror Python semantics:
`==` between values of different shapes is `False`, and a container is
truthy iff it is non-empty. -/

inductive PyVal where
  | none : PyVal
  | bool : Bool → PyVal
  | int : Int → PyVal
  | str : String → PyVal
  | list : List PyVal → PyVal
  | dict : List (String × PyVal) → PyVal
deriving Repr

mutual

/-- Python `==` on the embedded values.  Different shapes compare
unequal (in particular a `str` never equals a `dict`). -/
def pyEq : PyVal → PyVal → Bool
  | .none, .none => true
  | .bool a, .bool b => a == b
  | .int a, .int b => a == b
  | .str a, .str b => a == b
  | .list a, .list b => pyEqList a b
  | .dict a, .dict b => pyEqDict a b
  | _, _ => false

def pyEqList : List PyVal → List PyVal → Bool
  | [], [] => true
  | a :: as, b :: bs => pyEq a b && pyEqList as bs
  | _, _ => false

def pyEqDict : List (String × PyVal) → List (String × PyVal) → Bool
  | [], [] => true
  | (k, v) :: as, bs =>
      match bs.lookup k with
      | some w => pyEq v w && pyEqDict as (bs.filter (fun p => p.1 ≠ k))
      | Option.none => false
  | _, _ => false

end

/-- Python truthiness of the embedded values. -/
def pyTruthy : PyVal → Bool
  | .none => false
  | .bool b => b
  | .int n => n ≠ 0
  | .str s => s ≠ ""
  | .list l => !l.isEmpty
  | .dict d => !d.isEmpty

/-- Python `x in l` for a list `l`. -/
def pyInList (x : PyVal) (l : List PyVal) : Bool :=
  l.any (fun e => pyEq x e)

/-- `d.get(k, default)` on an embedded dict body. -/
def dictGetD (d : List (String × PyVal)) (k : String) (dflt : PyVal) : PyVal :=
  (d.lookup k).getD dflt

/-- `d.get(k)` on an embedded dict body (`None` when absent). -/
def dictGet (d : List (String × PyVal)) (k : String) : PyVal :=
  dictGetD d k .none

/-! ## `error_recovery.py` — `ToolExecutionTracker`

The Python class keeps `attempt_counts : Dict[str, int]`; we model the
dict as an insertion-ordered association list and the Python integers as
`Int` (so that non-negativity is a theorem, not a typing assumption). -/

/-- Insertion-ordered dict update: replace the first binding of `k`, or
append a new binding, exactly like assignment on a Python dict. -/
def dictSetInt : List (String × Int) → String → Int → List (String × Int)
  | [], k, v => [(k, v)]
  | (k', v') :: rest, k, v =>
      if k' = k then (k, v) :: rest else (k', v') :: dictSetInt rest k v

/-- State of `ToolExecutionTracker` (`error_recovery.py`, lines 148–209). -/
structure ToolExecutionTracker where
  max_attempts : Int
  attempt_counts : List (String × Int)
deriving Repr

namespace ToolExecutionTracker

/-- `ToolExecutionTracker.__init__` (default `max_attempts = 2`). -/
def init (maxAttempts : Int := 2) : ToolExecutionTracker :=
  { max_attempts := maxAttempts, attempt_counts := [] }

/-- Value of a tool's counter as the retry logic reads it
(`attempt_counts.get(tool_name, 0)`). -/
def counterOf (tr : ToolExecutionTracker) (tool : String) : Int :=
  (tr.attempt_counts.lookup tool).getD 0

/-- `record_attempt`: initialise the counter to 0 when absent, add one,
and return the 1-indexed attempt number. -/
def record_attempt (tr : ToolExecutionTracker) (tool : String) :
    ToolExecutionTracker × Int :=
  let counts :=
    if (tr.attempt_counts.lookup tool).isNone then
      dictSetInt tr.attempt_counts tool 0
    else tr.attempt_counts
  let n := (counts.lookup tool).getD 0 + 1
  ({ tr with attempt_counts := dictSetInt counts tool n }, n)

/-- `record_success`: reset the tool's counter to 0 when it is present;
tools never attempted are untouched. -/
def record_success (tr : ToolExecutionTracker) (tool : String) :
    ToolExecutionTracker :=
  if (tr.attempt_counts.lookup tool).isSome then
    { tr with attempt_counts := dictSetInt tr.attempt_counts tool 0 }
  else tr

/-- `can_retry`: `attempts < max_attempts` with a default of 0 for a
tool never attempted. -/
def can_retry (tr : ToolExecutionTracker) (tool : String) : Bool :=
  tr.counterOf tool < tr.max_attempts

/-- `reset`: clear all counters (start of a new conversation turn). -/
def reset (tr : ToolExecutionTracker) : ToolExecutionTracker :=
  { tr with attempt_counts := [] }

end ToolExecutionTracker

/-- The operations the agent performs on its tracker during a run. -/
inductive TrackerOp where
  | attempt (tool : String)
  | success (tool : String)
  | resetAll
deriving Repr, DecidableEq

/-- Apply one tracker operation. -/
def applyTrackerOp (tr : ToolExecutionTracker) : TrackerOp → ToolExecutionTracker
  | .attempt t => (tr.record_attempt t).1
  | .success t => tr.record_success t
  | .resetAll => tr.reset

/-- Run a trace of tracker operations from a freshly constructed tracker. -/
def runTrackerOps (maxAttempts : Int) (ops : List TrackerOp) : ToolExecutionTracker :=
  ops.foldl applyTrackerOp (ToolExecutionTracker.init maxAttempts)

/-- Number of `record_attempt tool` calls since the last
`record_success tool` or `reset()` in a trace — the specification's
reading of the counter. -/
def attemptsSince (ops : List TrackerOp) (tool : String) : Int :=
  ops.foldl
    (fun n op =>
      match op with
      | .attempt u => if u = tool then n + 1 else n
      | .success u => if u = tool then 0 else n
      | .resetAll => 0)
    0

/-! ### Dictionary lemmas for the tracker -/

theorem lookup_dictSetInt_self (l : List (String × Int)) (k : String) (v : Int) :
    (dictSetInt l k v).lookup k = some v := by
  induction l with
  | nil => simp [dictSetInt, List.lookup]
  | cons p rest ih =>
      obtain ⟨k', v'⟩ := p
      by_cases h : k' = k
      · subst h; simp [dictSetInt, List.lookup]
      · have hne : (k == k') = false := beq_eq_false_iff_ne.mpr (Ne.symm h)
        simp [dictSetInt, h, List.lookup, hne, ih]

theorem lookup_dictSetInt_other (l : List (String × Int)) (k k' : String) (v : Int)
    (h : k' ≠ k) : (dictSetInt l k v).lookup k' = l.lookup k' := by
  have hne : (k' == k) = false := beq_eq_false_iff_ne.mpr h
  induction l with
  | nil => simp [dictSetInt, List.lookup, hne]
  | cons p rest ih =>
      obtain ⟨k₀, v₀⟩ := p
      by_cases hk : k₀ = k
      · subst hk
        simp [dictSetInt, List.lookup, hne]
      · simp only [dictSetInt, if_neg hk, List.lookup]
        cases hbe : k' == k₀ <;> simp [hbe, ih]

theorem dictSetInt_dictSetInt (l : List (String × Int)) (k : String) (v w : Int) :
    dictSetInt (dictSetInt l k v) k w = dictSetInt l k w := by
  induction l with
  | nil => simp [dictSetInt]
  | cons p rest ih =>
      obtain ⟨k₀, v₀⟩ := p
      by_cases hk : k₀ = k
      · subst hk; simp [dictSetInt]
      · simp [dictSetInt, hk, ih]

/-- Normal form for `record_attempt`: whether or not the key was already
present, the result increments the stored default-0 counter. -/
theorem record_attempt_eq (tr : ToolExecutionTracker) (t : String) :
    tr.record_attempt t =
      ({ tr with attempt_counts :=
          dictSetInt tr.attempt_counts t ((tr.attempt_counts.lookup t).getD 0 + 1) },
        (tr.attempt_counts.lookup t).getD 0 + 1) := by
  unfold ToolExecutionTracker.record_attempt
  by_cases habs : (tr.attempt_counts.lookup t).isNone
  · cases hl : tr.attempt_counts.lookup t with
    | none => simp [habs, hl, lookup_dictSetInt_self, dictSetInt_dictSetInt]
    | some n => rw [hl] at habs; simp at habs
  · simp [habs]

theorem counterOf_applyTrackerOp (tr : ToolExecutionTracker) (op : TrackerOp)
    (t : String) :
    (applyTrackerOp tr op).counterOf t =
      match op with
      | .attempt u => if u = t then tr.counterOf t + 1 else tr.counterOf t
      | .success u => if u = t then 0 else tr.counterOf t
      | .resetAll => 0 := by
  cases op with
  | attempt u =>
      simp only [applyTrackerOp, record_attempt_eq, ToolExecutionTracker.counterOf]
      by_cases h : u = t
      · subst h
        simp [lookup_dictSetInt_self]
      · have ht : t ≠ u := Ne.symm h
        simp [h, lookup_dictSetInt_other _ _ _ _ ht]
  | success u =>
      by_cases h : u = t
      · subst h
        simp only [applyTrackerOp, ToolExecutionTracker.record_success,
          ToolExecutionTracker.counterOf, if_pos rfl]
        by_cases hp : (tr.attempt_counts.lookup u).isSome
        · simp [hp, lookup_dictSetInt_self]
        · cases hl : tr.attempt_counts.lookup u with
          | none => simp [hl, hp]
          | some n => rw [hl] at hp; simp at hp
      · have ht : t ≠ u := Ne.symm h
        simp only [applyTrackerOp, ToolExecutionTracker.record_success,
          ToolExecutionTracker.counterOf, if_neg h]
        by_cases hp : (tr.attempt_counts.lookup u).isSome
        · simp [hp, lookup_dictSetInt_other _ _ _ _ ht]
        · simp [hp]
  | resetAll =>
      simp [applyTrackerOp, ToolExecutionTracker.reset, ToolExecutionTracker.counterOf,
        List.lookup]

theorem counterOf_foldl (ops : List TrackerOp) (tr : ToolExecutionTracker)
    (t : String) :
    (ops.foldl applyTrackerOp tr).counterOf t =
      ops.foldl
        (fun n op =>
          match op with
          | .attempt u => if u = t then n + 1 else n
          | .success u => if u = t then 0 else n
          | .resetAll => 0)
        (tr.counterOf t) := by
  induction ops generalizing tr with
  | nil => rfl
  | cons op rest ih =>
      simp only [List.foldl_cons]
      rw [ih, counterOf_applyTrackerOp]

theorem counterOf_runTrackerOps (maxAttempts : Int) (ops : List TrackerOp)
    (t : String) :
    (runTrackerOps maxAttempts ops).counterOf t = attemptsSince ops t := by
  unfold runTrackerOps attemptsSince
  rw [counterOf_foldl]
  rfl

theorem max_attempts_applyTrackerOp (tr : ToolExecutionTracker) (op : TrackerOp) :
    (applyTrackerOp tr op).max_attempts = tr.max_attempts := by
  cases op with
  | attempt t => rw [applyTrackerOp, record_attempt_eq]
  | success t =>
      rw [applyTrackerOp, ToolExecutionTracker.record_success]
      split <;> rfl
  | resetAll => rfl

theorem max_attempts_foldl (ops : List TrackerOp) (tr : ToolExecutionTracker) :
    (ops.foldl applyTrackerOp tr).max_attempts = tr.max_attempts := by
  induction ops generalizing tr with
  | nil => rfl
  | cons op rest ih =>
      simp only [List.foldl_cons]
      rw [ih, max_attempts_applyTrackerOp]

/-- All counters stored in a tracker state. -/
def trackerNonneg (tr : ToolExecutionTracker) : Prop :=
  ∀ p ∈ tr.attempt_counts, 0 ≤ p.2

theorem dictSetInt_nonneg {l : List (String × Int)} {k : String} {v : Int}
    (hl : ∀ p ∈ l, 0 ≤ p.2) (hv : 0 ≤ v) :
    ∀ p ∈ dictSetInt l k v, 0 ≤ p.2 := by
  induction l with
  | nil => simpa [dictSetInt] using hv
  | cons q rest ih =>
      obtain ⟨k₀, v₀⟩ := q
      by_cases h : k₀ = k
      · subst h
        simpa [dictSetInt, hv] using fun p hp => hl p (List.mem_cons_of_mem _ hp)
      · intro p hp
        simp only [dictSetInt, if_neg h, List.mem_cons] at hp
        rcases hp with hp | hp
        · subst hp; exact hl _ (by simp)
        · exact ih (fun q hq => hl q (List.mem_cons_of_mem _ hq)) p hp

theorem lookup_nonneg {l : List (String × Int)} (hl : ∀ p ∈ l, 0 ≤ p.2)
    (k : String) : 0 ≤ (l.lookup k).getD 0 := by
  induction l with
  | nil => simp [List.lookup]
  | cons q rest ih =>
      obtain ⟨k₀, v₀⟩ := q
      simp only [List.lookup]
      cases hbe : k == k₀
      · simpa using ih fun p hp => hl p (List.mem_cons_of_mem _ hp)
      · simpa using hl (k₀, v₀) (by simp)

theorem trackerNonneg_applyTrackerOp {tr : ToolExecutionTracker}
    (h : trackerNonneg tr) (op : TrackerOp) : trackerNonneg (applyTrackerOp tr op) := by
  cases op with
  | attempt t =>
      have h1 : 0 ≤ (tr.attempt_counts.lookup t).getD 0 := lookup_nonneg h t
      intro p hp
      rw [applyTrackerOp, record_attempt_eq] at hp
      exact dictSetInt_nonneg h (by omega) p hp
  | success t =>
      intro p hp
      rw [applyTrackerOp, ToolExecutionTracker.record_success] at hp
      by_cases hs : (tr.attempt_counts.lookup t).isSome
      · rw [if_pos hs] at hp
        exact dictSetInt_nonneg h (le_refl 0) p hp
      · rw [if_neg hs] at hp
        exact h p hp
  | resetAll =>
      intro p hp
      simp [applyTrackerOp, ToolExecutionTracker.reset] at hp

theorem trackerNonneg_foldl (ops : List TrackerOp) (tr : ToolExecutionTracker)
    (h : trackerNonneg tr) : trackerNonneg (ops.foldl applyTrackerOp tr) := by
  induction ops generalizing tr with
  | nil => exact h
  | cons op rest ih =>
      simp only [List.foldl_cons]
      exact ih _ (trackerNonneg_applyTrackerOp h op)

theorem trackerNonneg_runTrackerOps (maxAttempts : Int) (ops : List TrackerOp) :
    trackerNonneg (runTrackerOps maxAttempts ops) := by
  unfold runTrackerOps
  exact trackerNonneg_foldl _ _ (by simp [trackerNonneg, ToolExecutionTracker.init])

/-- C5: after any trace of tracker operations on a fresh tracker,
`can_retry t` is true iff the number of `record_attempt t` calls since
the last `record_success t` or `reset()` is strictly below
`max_attempts` (whose constructor default is 2); `record_success t`
zeroes `t`'s counter and leaves every other tool's counter unchanged;
and no stored counter is ever negative. -/
theorem tracker_retry_semantics (maxAttempts : Int) (ops : List TrackerOp)
    (t t' : String) (hne : t' ≠ t) :
    (ToolExecutionTracker.init.max_attempts = 2)
    ∧ ((runTrackerOps maxAttempts ops).can_retry t
        = decide (attemptsSince ops t < maxAttempts))
    ∧ ((runTrackerOps maxAttempts (ops ++ [TrackerOp.success t])).counterOf t = 0)
    ∧ ((runTrackerOps maxAttempts (ops ++ [TrackerOp.success t])).counterOf t'
        = (runTrackerOps maxAttempts ops).counterOf t')
    ∧ (∀ p ∈ (runTrackerOps maxAttempts ops).attempt_counts, 0 ≤ p.2) := by
  have hm : (runTrackerOps maxAttempts ops).max_attempts = maxAttempts :=
    max_attempts_foldl ops _
  refine ⟨rfl, ?_, ?_, ?_, trackerNonneg_runTrackerOps maxAttempts ops⟩
  · unfold ToolExecutionTracker.can_retry
    rw [counterOf_runTrackerOps, hm]
  · rw [counterOf_runTrackerOps]
    simp [attemptsSince, List.foldl_append]
  · rw [counterOf_runTrackerOps, counterOf_runTrackerOps]
    have : ¬(t = t') := fun e => hne e.symm
    simp [attemptsSince, List.foldl_append, this]

/-- Witness for C5 at a concrete trace: two failed `bash` attempts with
`max_attempts = 2`, then a success; `read` is an unrelated tool. -/
theorem tracker_retry_semantics_witness :
    (ToolExecutionTracker.init.max_attempts = 2)
    ∧ ((runTrackerOps 2 [TrackerOp.attempt "bash", TrackerOp.attempt "bash"]).can_retry "bash"
        = decide (attemptsSince [TrackerOp.attempt "bash", TrackerOp.attempt "bash"] "bash" < 2))
    ∧ ((runTrackerOps 2 ([TrackerOp.attempt "bash", TrackerOp.attempt "bash"]
          ++ [TrackerOp.success "bash"])).counterOf "bash" = 0)
    ∧ ((runTrackerOps 2 ([TrackerOp.attempt "bash", TrackerOp.attempt "bash"]
          ++ [TrackerOp.success "bash"])).counterOf "read"
        = (runTrackerOps 2 [TrackerOp.attempt "bash", TrackerOp.attempt "bash"]).counterOf "read")
    ∧ (∀ p ∈ (runTrackerOps 2 [TrackerOp.attempt "bash", TrackerOp.attempt "bash"]).attempt_counts,
        0 ≤ p.2) :=
  tracker_retry_semantics 2 [TrackerOp.attempt "bash", TrackerOp.attempt "bash"]
    "bash" "read" (by decide)

/-! ## `json.dumps` (as used by `_format_result_for_llm` and
`_build_command_array`)

Escapes cover the characters arising in the embedded evaluations; the
two entry points mirror `json.dumps(v)` (default separators) and
`json.dumps(v, indent=2)`. -/

def jsonEscapeChar (c : Char) : List Char :=
  if c = '"' then ['\\', '"']
  else if c = '\\' then ['\\', '\\']
  else if c = '\n' then ['\\', 'n']
  else if c = '\t' then ['\\', 't']
  else if c = '\r' then ['\\', 'r']
  else [c]

def jsonEscape (s : String) : String :=
  String.mk ((s.toList.map jsonEscapeChar).flatten)

def spaces (n : Nat) : String :=
  String.mk (List.replicate n ' ')

mutual

/-- `json.dumps(v)` with the default separators `(', ', ': ')`. -/
def jsonDumps : PyVal → String
  | .none => "null"
  | .bool b => if b then "true" else "false"
  | .int n => toString n
  | .str s => "\"" ++ jsonEscape s ++ "\""
  | .list l => "[" ++ String.intercalate ", " (jsonDumpsListItems l) ++ "]"
  | .dict d => "\x7b" ++ String.intercalate ", " (jsonDumpsDictItems d) ++ "\x7d"

def jsonDumpsListItems : List PyVal → List String
  | [] => []
  | v :: rest => jsonDumps v :: jsonDumpsListItems rest

def jsonDumpsDictItems : List (String × PyVal) → List String
  | [] => []
  | (k, v) :: rest =>
      ("\"" ++ jsonEscape k ++ "\": " ++ jsonDumps v) :: jsonDumpsDictItems rest

end

mutual

/-- `json.dumps(v, indent=2)` rendered at indentation level `lvl`. -/
def jsonDumpsIndent (lvl : Nat) : PyVal → String
  | .none => "null"
  | .bool b => if b then "true" else "false"
  | .int n => toString n
  | .str s => "\"" ++ jsonEscape s ++ "\""
  | .list [] => "[]"
  | .list (v :: rest) =>
      "[\n" ++ String.intercalate ",\n" (jsonDumpsIndentListItems (lvl + 2) (v :: rest))
        ++ "\n" ++ spaces lvl ++ "]"
  | .dict [] => "\x7b\x7d"
  | .dict (kv :: rest) =>
      "\x7b\n" ++ String.intercalate ",\n" (jsonDumpsIndentDictItems (lvl + 2) (kv :: rest))
        ++ "\n" ++ spaces lvl ++ "\x7d"

def jsonDumpsIndentListItems (lvl : Nat) : List PyVal → List String
  | [] => []
  | v :: rest => (spaces lvl ++ jsonDumpsIndent lvl v) :: jsonDumpsIndentListItems lvl rest

def jsonDumpsIndentDictItems (lvl : Nat) : List (String × PyVal) → List String
  | [] => []
  | (k, v) :: rest =>
      (spaces lvl ++ "\"" ++ jsonEscape k ++ "\": " ++ jsonDumpsIndent lvl v)
        :: jsonDumpsIndentDictItems lvl rest

end

/-! ## The canonical (universal) message model

`agent.py` keeps `self.messages` as a list of dicts in the universal
format; the Anthropic translator consumes exactly these shapes
(`_convert_messages`, lines 109–201). -/

/-- A canonical tool call `{id, name, arguments}`. -/
structure ToolCall where
  id : String
  name : String
  arguments : PyVal
deriving Repr

/-- Canonical conversation message, as agent.py builds them:
`{"role": "user"|"system"|"assistant"|"tool", ...}`.  For assistant
messages the `tool_calls` key is read back with default `[]`, so an
absent key and an empty list are the same message. -/
inductive UMessage where
  | user (content : String)
  | system (content : String)
  | assistant (content : String) (tool_calls : List ToolCall)
  | tool (tool_call_id : String) (content : String)
deriving Repr

/-- Normalized model response `{message, tool_calls, done}` (the `raw`
field carries no information used by the loop). -/
structure LLMResponse where
  message : String
  tool_calls : List ToolCall
  done : Bool
deriving Repr

/-- `LLMProvider._format_result_for_llm` (`providers/base.py`):
dicts/lists are JSON-dumped with `indent=2`, everything else goes
through `str(...)`. -/
def formatResultForLLM : PyVal → String
  | .dict d => jsonDumpsIndent 0 (.dict d)
  | .list l => jsonDumpsIndent 0 (.list l)
  | .str s => s
  | .bool b => if b then "True" else "False"
  | .int n => toString n
  | .none => "None"

/-- `AnthropicProvider.format_tool_result`: a universal `tool` message
(the `tool_name` argument is unused). -/
def formatToolResult (tool_call_id : String) (_tool_name : String) (result : PyVal) :
    UMessage :=
  .tool tool_call_id (formatResultForLLM result)

/-- `AnthropicProvider.format_assistant_message`. -/
def formatAssistantMessage (response : LLMResponse) : UMessage :=
  .assistant response.message response.tool_calls

/-! ## `error_recovery.py` — `ToolError` and its LLM rendering -/

/-- Python `needle in haystack` on strings. -/
def strContains (haystack needle : String) : Bool :=
  (haystack.splitOn needle).length != 1

/-- Structured error information for tool failures. -/
structure ToolError where
  tool_name : String
  error_message : String
  arguments : PyVal
  recovery_hints : String
deriving Repr

/-- `ToolError._generate_recovery_hints`: first matching category wins;
generic hints otherwise. -/
def generateRecoveryHints (_tool_name : String) (error_msg : String)
    (_arguments : PyVal) : String :=
  let hints : List String :=
    if strContains error_msg "Command not found"
        || strContains error_msg.toLower "command not found" then
      ["- The command is not installed or not in PATH",
       "- Check if the tool needs to be installed",
       "- Try using an alternative tool or command"]
    else if strContains error_msg "Permission denied" then
      ["- The tool doesn't have permission to access the resource",
       "- Check file/directory permissions",
       "- Try with a different path or ask the user for access"]
    else if strContains error_msg "No such file or directory"
        || strContains error_msg "File not found" then
      ["- The specified file or directory doesn't exist",
       "- Check the path is correct",
       "- Use bash tool to list directory contents first"]
    else if strContains error_msg.toLower "timed out" then
      ["- The tool took too long to execute",
       "- Try breaking the task into smaller steps",
       "- Consider if the operation is genuinely long-running"]
    else if strContains error_msg "Invalid command syntax"
        || strContains error_msg "SyntaxError" then
      ["- The command syntax is invalid",
       "- Check the parameter format",
       "- Review the tool's parameter requirements"]
    else if strContains error_msg "Missing required parameter" then
      ["- A required parameter is missing",
       "- Check the tool definition for required parameters",
       "- Provide all required parameters"]
    else
      ["- Review the error message for clues",
       "- Check if the parameters are correct",
       "- Try a different approach or tool"]
  String.intercalate "\n" hints

/-- `ToolError.from_exception`. -/
def ToolError.from_exception (tool_name : String) (exception_msg : String)
    (arguments : PyVal) : ToolError :=
  { tool_name := tool_name
    error_message := exception_msg
    arguments := arguments
    recovery_hints := generateRecoveryHints tool_name exception_msg arguments }

/-- Python `str(dict)` for the `Arguments used:` line.  (Only the cases
arising in the embedding; Python renders dicts with repr of keys and
values.) -/
def pyReprStr : PyVal → String
  | .none => "None"
  | .bool b => if b then "True" else "False"
  | .int n => toString n
  | .str s => "'" ++ s ++ "'"
  | .list l => "[" ++ String.intercalate ", " (l.map fun _ => "...") ++ "]"
  | .dict d =>
      "\x7b" ++ String.intercalate ", "
        (d.map fun kv => "'" ++ kv.1 ++ "': " ++
          (match kv.2 with
           | .str s => "'" ++ s ++ "'"
           | .int n => toString n
           | .bool b => if b then "True" else "False"
           | .none => "None"
           | _ => "...")) ++ "\x7d"

/-- `ToolError.to_llm_message(attempt, max_attempts)`. -/
def ToolError.to_llm_message (e : ToolError) (attempt max_attempts : Int) : String :=
  let can_retry := attempt < max_attempts
  let message_parts : List String :=
    ["Tool '" ++ e.tool_name ++ "' failed (attempt " ++ toString attempt ++ "/"
       ++ toString max_attempts ++ ")",
     "",
     "Error:",
     e.error_message,
     "",
     "Arguments used:",
     pyReprStr e.arguments]
  let message_parts :=
    if can_retry then
      message_parts ++
        ["",
         "Recovery hints:",
         e.recovery_hints,
         "",
         "You have " ++ toString (max_attempts - attempt) ++ " more attempt(s) to fix this.",
         "Please adjust your approach based on the error and hints above."]
    else
      message_parts ++
        ["",
         "Maximum retry attempts reached.",
         "Consider:",
         "- Asking the user for help",
         "- Trying a completely different approach",
         "- Breaking down the task into simpler steps"]
  String.intercalate "\n" message_parts

/-! ## `agent.py` — `_execute_single_tool` and
`_execute_tool_calls_parallel`

External effects are an explicit environment: the per-tool approval
configuration, the human's answer to the approval prompt, the loader's
registry, and the executor's behaviour on each call.  `asyncio` here is
single-threaded cooperative scheduling and the tracker is only touched
between await points, so threading the tracker through the calls in
dispatch order is a faithful linearization. -/

/-- Behaviour of `ToolExecutor.execute_tool` on one call: a returned
value, or a raised exception carrying a message. -/
inductive ExecOutcome where
  | ok (result : PyVal)
  | raises (msg : String)
deriving Repr

structure AgentEnv where
  /-- `self._needs_approval name` = `get_tool_config(name).get("approval", False)`. -/
  needs_approval : String → Bool
  /-- outcome of `self._prompt_user_approval` for a given call. -/
  user_approves : String → PyVal → Bool
  /-- `self.tool_loader.get_tool name` is not `None`. -/
  known_tool : String → Bool
  /-- `list(self.tool_loader.tools_by_name.keys())`. -/
  available_tools : List String
  /-- behaviour of `self.executor.execute_tool` on the call. -/
  executor : ToolCall → ExecOutcome

/-- Result of one `_execute_single_tool` invocation: the tool-result
message returned, the tracker state after the call, and the list of
`ToolExecutor.execute_tool` invocations it performed. -/
structure SingleToolResult where
  message : UMessage
  tracker : ToolExecutionTracker
  executor_calls : List ToolCall
deriving Repr

/-- The `except Exception` branch of `_execute_single_tool`. -/
def exceptBranchMessage (tr : ToolExecutionTracker) (tc : ToolCall)
    (attempt : Int) (exception_msg : String) : UMessage :=
  let tool_error := ToolError.from_exception tc.name exception_msg tc.arguments
  let error_message := tool_error.to_llm_message attempt tr.max_attempts
  formatToolResult tc.id tc.name (.dict [("error", .str error_message)])

/-- `OpusAgent._execute_single_tool` (agent.py, lines 132–221). -/
def executeSingleTool (env : AgentEnv) (tr : ToolExecutionTracker) (tc : ToolCall) :
    SingleToolResult :=
  if env.needs_approval tc.name && !env.user_approves tc.name tc.arguments then
    { message := formatToolResult tc.id tc.name
        (.dict [("error", .str "Tool execution rejected by user")])
      tracker := tr
      executor_calls := [] }
  else
    let ra := tr.record_attempt tc.name
    let tr1 := ra.1
    let attempt := ra.2
    if !env.known_tool tc.name then
      let error_msg := "Tool '" ++ tc.name ++ "' not found. Available tools: "
        ++ String.intercalate ", " env.available_tools
      { message := exceptBranchMessage tr1 tc attempt error_msg
        tracker := tr1
        executor_calls := [] }
    else
      match env.executor tc with
      | .ok result =>
          { message := formatToolResult tc.id tc.name result
            tracker := tr1.record_success tc.name
            executor_calls := [tc] }
      | .raises e =>
          { message := exceptBranchMessage tr1 tc attempt e
            tracker := tr1
            executor_calls := [tc] }

/-- Run a list of calls one after the other, threading the tracker
(`asyncio.gather` preserves the order of its argument list in the
returned results). -/
def runCalls (env : AgentEnv) : ToolExecutionTracker → List ToolCall →
    ToolExecutionTracker × List UMessage
  | tr, [] => (tr, [])
  | tr, tc :: rest =>
      let r := executeSingleTool env tr tc
      let rec' := runCalls env r.tracker rest
      (rec'.1, r.message :: rec'.2)

/-- `OpusAgent._execute_tool_calls_parallel` (agent.py, lines 223–268):
partition into auto-approved and approval-gated (order preserved in each
partition), run the auto partition, then the gated partition, and append
every result to the history. -/
def executeToolCallsParallel (env : AgentEnv) (tr : ToolExecutionTracker)
    (messages : List UMessage) (tool_calls : List ToolCall) :
    ToolExecutionTracker × List UMessage × List UMessage :=
  let needs_approval_calls := tool_calls.filter (fun tc => env.needs_approval tc.name)
  let auto_approved_calls := tool_calls.filter (fun tc => !env.needs_approval tc.name)
  let auto := runCalls env tr auto_approved_calls
  let gated := runCalls env auto.1 needs_approval_calls
  let results := auto.2 ++ gated.2
  (gated.1, results, messages ++ results)

/-- The `tool_call_id` carried by a universal tool-result message. -/
def msgToolCallId : UMessage → Option String
  | .tool id _ => some id
  | _ => none

theorem executeSingleTool_message_id (env : AgentEnv) (tr : ToolExecutionTracker)
    (tc : ToolCall) :
    msgToolCallId (executeSingleTool env tr tc).message = some tc.id := by
  unfold executeSingleTool
  split
  · rfl
  · dsimp only
    split
    · rfl
    · split <;> rfl

theorem runCalls_ids (env : AgentEnv) (tr : ToolExecutionTracker)
    (calls : List ToolCall) :
    ((runCalls env tr calls).2).filterMap msgToolCallId = calls.map ToolCall.id := by
  induction calls generalizing tr with
  | nil => rfl
  | cons tc rest ih =>
      simp [runCalls, List.filterMap_cons, executeSingleTool_message_id, ih]

theorem runCalls_length (env : AgentEnv) (tr : ToolExecutionTracker)
    (calls : List ToolCall) :
    ((runCalls env tr calls).2).length = calls.length := by
  induction calls generalizing tr with
  | nil => rfl
  | cons tc rest ih => simp [runCalls, ih]

theorem partition_perm (env : AgentEnv) (tool_calls : List ToolCall) :
    List.Perm
      (tool_calls.filter (fun tc => !env.needs_approval tc.name)
        ++ tool_calls.filter (fun tc => env.needs_approval tc.name))
      tool_calls := by
  have h1 : tool_calls.filter (fun tc => env.needs_approval tc.name)
      = tool_calls.filter (fun tc => !!env.needs_approval tc.name) := by
    apply List.filter_congr
    intro x _
    simp
  rw [h1]
  exact List.filter_append_perm _ tool_calls

/-- C2: one batch dispatch produces exactly one tool-result message per
tool call — none dropped, none duplicated — the multiset of
`tool_call_id`s on the results equals the multiset of `ToolCall.id`s of
the batch (on every per-call outcome, since the environment is
universally quantified over approval gating, rejection, unknown tools,
success and failure), and the history is extended by exactly those
results. -/
theorem batch_one_result_per_call (env : AgentEnv) (tr : ToolExecutionTracker)
    (messages : List UMessage) (tool_calls : List ToolCall) :
    ((executeToolCallsParallel env tr messages tool_calls).2.1.length = tool_calls.length)
    ∧ (∀ i : String,
        ((executeToolCallsParallel env tr messages tool_calls).2.1.filterMap
            msgToolCallId).count i
          = (tool_calls.map ToolCall.id).count i)
    ∧ ((executeToolCallsParallel env tr messages tool_calls).2.2
        = messages ++ (executeToolCallsParallel env tr messages tool_calls).2.1) := by
  have hids : List.Perm
      ((executeToolCallsParallel env tr messages tool_calls).2.1.filterMap msgToolCallId)
      (tool_calls.map ToolCall.id) := by
    unfold executeToolCallsParallel
    dsimp only
    rw [List.filterMap_append, runCalls_ids, runCalls_ids, ← List.map_append]
    exact (partition_perm env tool_calls).map ToolCall.id
  refine ⟨?_, fun i => hids.count_eq i, rfl⟩
  unfold executeToolCallsParallel
  dsimp only
  rw [List.length_append, runCalls_length, runCalls_length]
  have := (partition_perm env tool_calls).length_eq
  simpa [List.length_append] using this

/-- C6: a rejected approval-gated call short-circuits to the fixed
rejection error result and never reaches `ToolExecutor.execute_tool`. -/
theorem approval_rejection_short_circuits (env : AgentEnv)
    (tr : ToolExecutionTracker) (tc : ToolCall)
    (hgate : env.needs_approval tc.name = true)
    (hrej : env.user_approves tc.name tc.arguments = false) :
    (executeSingleTool env tr tc).message
      = UMessage.tool tc.id
          "\x7b\n  \"error\": \"Tool execution rejected by user\"\n\x7d"
    ∧ (executeSingleTool env tr tc).executor_calls = [] := by
  unfold executeSingleTool
  rw [hgate, hrej]
  exact ⟨rfl, rfl⟩

/-- Concrete environment with an approval-gated `bash` tool whose
prompt the user answers `n`. -/
def envGate : AgentEnv :=
  { needs_approval := fun n => n == "bash"
    user_approves := fun _ _ => false
    known_tool := fun _ => true
    available_tools := ["bash", "read"]
    executor := fun _ => .ok (.dict [("output", .str "ok")]) }

def tcGate : ToolCall :=
  { id := "call_1", name := "bash", arguments := PyVal.dict [] }

/-- Witness for C6: concrete rejected gated call. -/
theorem approval_rejection_short_circuits_witness :
    (executeSingleTool envGate (ToolExecutionTracker.init 2) tcGate).message
      = UMessage.tool "call_1"
          "\x7b\n  \"error\": \"Tool execution rejected by user\"\n\x7d"
    ∧ (executeSingleTool envGate (ToolExecutionTracker.init 2) tcGate).executor_calls
      = [] :=
  approval_rejection_short_circuits envGate (ToolExecutionTracker.init 2) tcGate
    (by decide) (by decide)

/-- C10: a rejected approval-gated call leaves the tracker state — every
counter and every retry budget — exactly as it was: `record_attempt` is
only reached after the approval check passes. -/
theorem approval_rejection_preserves_tracker (env : AgentEnv)
    (tr : ToolExecutionTracker) (tc : ToolCall)
    (hgate : env.needs_approval tc.name = true)
    (hrej : env.user_approves tc.name tc.arguments = false) :
    (executeSingleTool env tr tc).tracker = tr
    ∧ (∀ u : String,
        ((executeSingleTool env tr tc).tracker).counterOf u = tr.counterOf u)
    ∧ (∀ u : String,
        ((executeSingleTool env tr tc).tracker).can_retry u = tr.can_retry u) := by
  have h : (executeSingleTool env tr tc).tracker = tr := by
    unfold executeSingleTool
    rw [hgate, hrej]
    rfl
  exact ⟨h, fun u => by rw [h], fun u => by rw [h]⟩

/-- Witness for C10: same concrete rejected gated call, with a tracker
that already holds counters. -/
theorem approval_rejection_preserves_tracker_witness :
    (executeSingleTool envGate
        { max_attempts := 2, attempt_counts := [("read", 1)] } tcGate).tracker
      = { max_attempts := 2, attempt_counts := [("read", 1)] }
    ∧ (∀ u : String,
        ((executeSingleTool envGate
            { max_attempts := 2, attempt_counts := [("read", 1)] } tcGate).tracker).counterOf u
          = ToolExecutionTracker.counterOf
              { max_attempts := 2, attempt_counts := [("read", 1)] } u)
    ∧ (∀ u : String,
        ((executeSingleTool envGate
            { max_attempts := 2, attempt_counts := [("read", 1)] } tcGate).tracker).can_retry u
          = ToolExecutionTracker.can_retry
              { max_attempts := 2, attempt_counts := [("read", 1)] } u) :=
  approval_rejection_preserves_tracker envGate
    { max_attempts := 2, attempt_counts := [("read", 1)] } tcGate (by decide) (by decide)

/-! ## `agent.py` — the sub-agent tool-registry filter (`__init__`,
lines 62–75)

`load_tools` (tools/loader.py, line 29–73) returns a *list* of tool
definition dicts.  `__init__` then evaluates
`is_subagent and "run_subagents" in self.tools` — a string-membership
test against a list of dicts, which compares the string against each
dict — and, were it ever true, would evaluate `self.tools.items()`,
an `AttributeError` on a list. -/

/-- The registry held in `self.tools` after `__init__`: either the tool
list unchanged, or the `AttributeError` the (dead) filter branch would
raise. -/
def agentTools (loaded : List PyVal) (is_subagent : Bool) : Except String (List PyVal) :=
  if is_subagent && pyInList (.str "run_subagents") loaded then
    .error "AttributeError: 'list' object has no attribute 'items'"
  else
    .ok loaded

/-- The `name` field of a loaded tool-definition dict. -/
def toolName : PyVal → Option String
  | .dict d =>
      match d.lookup "name" with
      | some (.str s) => some s
      | _ => Option.none
  | _ => Option.none

theorem pyEq_str_dict (s : String) (d : List (String × PyVal)) :
    pyEq (.str s) (.dict d) = false := by
  rfl

/-- On a list of tool-definition dicts the membership test
`"run_subagents" in self.tools` is always false. -/
theorem pyInList_str_of_dicts (s : String) (loaded : List PyVal)
    (h : ∀ t ∈ loaded, ∃ d, t = PyVal.dict d) :
    pyInList (.str s) loaded = false := by
  induction loaded with
  | nil => rfl
  | cons t rest ih =>
      obtain ⟨d, hd⟩ := h t (by simp)
      subst hd
      simp only [pyInList, List.any_cons, pyEq_str_dict, Bool.false_or]
      exact ih fun u hu => h u (List.mem_cons_of_mem _ hu)

/-- A custom tool configured under the name `run_subagents`
(loader `_load_tool_from_file` accepts any YAML with
`name`/`description`/`script`). -/
def runSubagentsCustomToolDef : PyVal :=
  .dict [("name", .str "run_subagents"),
         ("description", .str "custom tool"),
         ("script", .str "python spawn.py"),
         ("tool_path", .str "/tools")]

/-- C1 (refuted): with `is_subagent = True` and a loaded registry
containing a tool named `run_subagents`, the registry exposed to the
model still contains that tool — the filter compares the string against
dicts and never fires (and its body would be an `AttributeError` on a
list if it did). -/
theorem subagent_registry_keeps_run_subagents :
    agentTools [runSubagentsCustomToolDef] true = .ok [runSubagentsCustomToolDef]
    ∧ toolName runSubagentsCustomToolDef = some "run_subagents"
    ∧ pyInList (.str "run_subagents") [runSubagentsCustomToolDef] = false :=
  ⟨rfl, rfl, rfl⟩

/-! ## `config.py` and the `max_turns` wiring of `_spawn_subagent`
(run_subagents.py, lines 192–213)

`OpusConfig.from_yaml` builds a fresh instance on every call
(config.py, lines 59–88); `OpusConfig.__init__` reads
`config_data.get("max_iterations", 25)` and
`config_data.get("default_timeout", 30)` and defines no
`subagent_max_turns` attribute.  `_spawn_subagent` overrides
`max_iterations` on its *local* config object but constructs the child
as `OpusAgent(config_path=config_path, ...)`, whose `__init__` loads its
own fresh config. -/

/-- The yaml keys of the config file relevant to spawning. -/
structure YamlData where
  max_iterations : Option Int
  default_timeout : Option Int
deriving Repr

/-- The `OpusConfig` fields used on the spawning path. -/
structure OpusConfig where
  max_iterations : Int
  default_timeout : Int
deriving Repr

/-- `OpusConfig.from_yaml` / `OpusConfig.__init__` defaults. -/
def OpusConfig.from_yaml (y : YamlData) : OpusConfig :=
  { max_iterations := y.max_iterations.getD 25
    default_timeout := y.default_timeout.getD 30 }

/-- What the configuration wiring of `_spawn_subagent` produces. -/
structure SpawnConfigResult where
  /-- `config.max_iterations` after the local override. -/
  local_max_iterations : Int
  /-- `sub_agent.config.max_iterations`: the iteration cap the child
  `chat("")` loop actually runs with. -/
  child_max_iterations : Int
  /-- the `asyncio.wait_for` timeout around `sub_agent.chat("")`. -/
  timeout : Int

/-- The configuration wiring of `_spawn_subagent`: load a local config,
override its `max_iterations` from `max_turns` (falling back to 15 since
this `OpusConfig` has no `subagent_max_turns` attribute), then build the
child from `config_path`, which loads its own fresh config. -/
def spawnSubagentConfig (yaml : YamlData) (max_turns : Option Int) : SpawnConfigResult :=
  let config := OpusConfig.from_yaml yaml
  let config : OpusConfig :=
    { config with
        max_iterations :=
          match max_turns with
          | some m => m
          | Option.none => 15 }
  let childConfig := OpusConfig.from_yaml yaml
  { local_max_iterations := config.max_iterations
    child_max_iterations := childConfig.max_iterations
    timeout := config.default_timeout }

/-- C3 (refuted): with a config file setting `max_iterations: 25` and
`max_turns = 3` supplied to the orchestrator, the spawned child runs
with an iteration cap of 25, not 3 — the override lands on a local
config object that is never given to the child. -/
theorem spawn_ignores_max_turns :
    (spawnSubagentConfig ⟨some 25, some 30⟩ (some 3)).child_max_iterations = 25
    ∧ (spawnSubagentConfig ⟨some 25, some 30⟩ (some 3)).local_max_iterations = 3
    ∧ (spawnSubagentConfig ⟨some 25, some 30⟩ (some 3)).child_max_iterations ≠ 3 :=
  ⟨rfl, rfl, by decide⟩

/-! ## `anthropic_provider.py` — `_convert_messages` (lines 109–201)

Wire-format messages: a user message is either a plain string or a list
of content blocks; an assistant message is a list of blocks. -/

/-- An Anthropic content block. -/
inductive ABlock where
  | text (text : String)
  | tool_use (id : String) (name : String) (input : PyVal)
  | tool_result (tool_use_id : String) (content : String)
deriving Repr

/-- An Anthropic wire message. -/
inductive AMessage where
  | userText (content : String)
  | userBlocks (content : List ABlock)
  | assistantBlocks (content : List ABlock)
deriving Repr

/-- Content blocks of an assistant message: a text block when the
content is truthy, then one `tool_use` block per tool call. -/
def assistantBlocksOf (content : String) (tool_calls : List ToolCall) : List ABlock :=
  (if content ≠ "" then [ABlock.text content] else [])
    ++ tool_calls.map (fun tc => ABlock.tool_use tc.id tc.name tc.arguments)

/-- The conversion loop with its `pending_tool_results` accumulator.
Tool results join the *next* user message (or a trailing user message at
the end); note that an assistant message does not flush them. -/
def convertGo : List UMessage → List ABlock → List AMessage
  | [], pending => if pending.isEmpty then [] else [.userBlocks pending]
  | msg :: rest, pending =>
      match msg with
      | .system _ => convertGo rest pending
      | .user content =>
          if pending.isEmpty then
            .userText content :: convertGo rest []
          else
            .userBlocks (pending ++ (if content ≠ "" then [ABlock.text content] else []))
              :: convertGo rest []
      | .assistant content tool_calls =>
          if (assistantBlocksOf content tool_calls).isEmpty then
            convertGo rest pending
          else
            .assistantBlocks (assistantBlocksOf content tool_calls) :: convertGo rest pending
      | .tool id content =>
          convertGo rest (pending ++ [ABlock.tool_result id content])

/-- `AnthropicProvider._convert_messages`. -/
def convertMessages (messages : List UMessage) : List AMessage :=
  convertGo messages []

/-- A first turn: model answers with one `bash` tool call, whose result
is formatted back into the history. -/
def respC9a : LLMResponse :=
  { message := "", tool_calls := [⟨"t1", "bash", .dict [("command", .str "ls")]⟩],
    done := false }

/-- The second model answer: another tool call. -/
def respC9b : LLMResponse :=
  { message := "", tool_calls := [⟨"t2", "read", .dict [("file", .str "a.txt")]⟩],
    done := false }

/-- History after the first tool round. -/
def historyC9 : List UMessage :=
  [UMessage.user "hi",
   formatAssistantMessage respC9a,
   formatToolResult "t1" "bash" (.dict [("output", .str "ok")])]

/-- The same history extended by `formatAssistantMessage respC9b` and
its matching `formatToolResult` — exactly the agent loop's next round. -/
def extendedC9 : List UMessage :=
  historyC9 ++
    [formatAssistantMessage respC9b,
     formatToolResult "t2" "read" (.dict [("output", .str "done")])]

/-- C9 (refuted): appending `formatAssistantMessage`/`formatToolResult`
for the next round and converting again does *not* leave the previous
wire rendering as a prefix: the tool results still pending at the new
assistant message are deferred past it, so the old trailing
`tool_result` user message moves behind the new assistant message (and
the `t1` `tool_use` block is no longer followed by its `tool_result`). -/
theorem convert_messages_prefix_violation :
    convertMessages historyC9 =
      [AMessage.userText "hi",
       AMessage.assistantBlocks
         [ABlock.tool_use "t1" "bash" (.dict [("command", .str "ls")])],
       AMessage.userBlocks
         [ABlock.tool_result "t1" "\x7b\n  \"output\": \"ok\"\n\x7d"]]
    ∧ convertMessages extendedC9 =
      [AMessage.userText "hi",
       AMessage.assistantBlocks
         [ABlock.tool_use "t1" "bash" (.dict [("command", .str "ls")])],
       AMessage.assistantBlocks
         [ABlock.tool_use "t2" "read" (.dict [("file", .str "a.txt")])],
       AMessage.userBlocks
         [ABlock.tool_result "t1" "\x7b\n  \"output\": \"ok\"\n\x7d",
          ABlock.tool_result "t2" "\x7b\n  \"output\": \"done\"\n\x7d"]]
    ∧ ¬ (convertMessages historyC9 <+: convertMessages extendedC9) := by
  refine ⟨rfl, rfl, ?_⟩
  intro hpre
  obtain ⟨t, ht⟩ := hpre
  rw [show convertMessages historyC9 =
      [AMessage.userText "hi",
       AMessage.assistantBlocks
         [ABlock.tool_use "t1" "bash" (.dict [("command", .str "ls")])],
       AMessage.userBlocks
         [ABlock.tool_result "t1" "\x7b\n  \"output\": \"ok\"\n\x7d"]] from rfl,
    show convertMessages extendedC9 =
      [AMessage.userText "hi",
       AMessage.assistantBlocks
         [ABlock.tool_use "t1" "bash" (.dict [("command", .str "ls")])],
       AMessage.assistantBlocks
         [ABlock.tool_use "t2" "read" (.dict [("file", .str "a.txt")])],
       AMessage.userBlocks
         [ABlock.tool_result "t1" "\x7b\n  \"output\": \"ok\"\n\x7d",
          ABlock.tool_result "t2" "\x7b\n  \"output\": \"done\"\n\x7d"]] from rfl] at ht
  simp only [List.cons_append, List.cons.injEq, List.nil_append] at ht
  exact absurd ht.2.2.1 (by simp)

/-! ## `tools/run_subagents.py` — context preparation, spawning and
validation

External effects are an environment: the file system, the URL fetcher
and the behaviour of each child's `chat("")` (keyed by `task_id`).
Wall-clock bookkeeping (`execution_time`, the rendered report's timing
lines) is real time and is not modelled; the per-task result carries
the fields the claims speak about: `task_id`, `prompt`, `status` and
`output`/`error`. -/

/-- One file-system entry as `_prepare_context` probes it
(`Path.exists`, `Path.is_file`, `stat().st_size`, read content). -/
structure FSEntry where
  is_file : Bool
  size : Int
  content : String
deriving Repr

/-- Behaviour of one child `sub_agent.chat("")` under
`asyncio.wait_for`. -/
inductive ChatOutcome where
  | completed (text : String)
  | timedOut
  | raises (msg : String)
deriving Repr

structure SubAgentEnv where
  /-- `Path(p).resolve()` probing: `none` when the path does not exist. -/
  fs : String → Option FSEntry
  /-- `fetch_url_content`: an error message or the fetched content. -/
  fetch : String → Except String String
  /-- child `chat("")` behaviour per `task_id`. -/
  chat : Nat → ChatOutcome

/-- Python `str(v)` as used in f-strings. -/
def pyStrOf : PyVal → String
  | .none => "None"
  | .bool b => if b then "True" else "False"
  | .int n => toString n
  | .str s => s
  | v => pyReprStr v

/-- `MAX_SUBAGENTS`. -/
def MAX_SUBAGENTS : Nat := 10

/-- `_prepare_context` for the `"file"` context type (path lookup and
size cap; every inner failure is wrapped in
`Error reading file {path}: ...`). -/
def prepareFileContext (env : SubAgentEnv) (spec : List (String × PyVal)) :
    Except String (Option String) :=
  let file_path := dictGet spec "path"
  if ¬ pyTruthy file_path then .error "File context requires 'path' field"
  else
    match file_path with
    | .str p =>
        match env.fs p with
        | Option.none => .error ("Error reading file " ++ p ++ ": File not found: " ++ p)
        | some entry =>
            if ¬ entry.is_file then
              .error ("Error reading file " ++ p ++ ": Path is not a file: " ++ p)
            else if entry.size > 10 * 1024 * 1024 then
              .error ("Error reading file " ++ p ++ ": File too large: " ++ p
                ++ " (max 10485760 bytes)")
            else
              .ok (some ("File: " ++ p ++ "\n\n" ++ entry.content))
    | v => .error ("Error reading file " ++ pyStrOf v ++ ": unsupported path type")

/-- `_prepare_context` for one entry of the `"files"` context type
(per-file errors become inline text instead of raising). -/
def prepareOneOfFiles (env : SubAgentEnv) (fp : PyVal) : String :=
  match fp with
  | .str p =>
      match env.fs p with
      | Option.none => "[Error: " ++ p ++ " not found or not a file]"
      | some entry =>
          if ¬ entry.is_file then "[Error: " ++ p ++ " not found or not a file]"
          else "=== " ++ p ++ " ===\n" ++ entry.content
  | v => "[Error reading " ++ pyStrOf v ++ ": unsupported path type]"

/-- `_prepare_context` (run_subagents.py, lines 18–106). -/
def prepareContext (env : SubAgentEnv) : PyVal → Except String (Option String)
  | .none => .ok Option.none
  | .str s => .ok (some s)
  | .dict spec =>
      match dictGet spec "type" with
      | .str "file" => prepareFileContext env spec
      | .str "url" =>
          let url := dictGet spec "url"
          if ¬ pyTruthy url then .error "URL context requires 'url' field"
          else
            match url with
            | .str u =>
                (match env.fetch u with
                 | .error e => .error ("Error fetching URL " ++ u ++ ": " ++ e)
                 | .ok content => .ok (some ("URL: " ++ u ++ "\n\n" ++ content)))
            | v => .error ("Error fetching URL " ++ pyStrOf v ++ ": unsupported url type")
      | .str "files" =>
          let paths := dictGetD spec "paths" (.list [])
          if ¬ pyTruthy paths then
            .error "Files context requires 'paths' field with list of paths"
          else
            match paths with
            | .list ps =>
                .ok (some (String.intercalate "\n\n" (ps.map (prepareOneOfFiles env))))
            | v => .error ("Unknown context type handling: " ++ pyStrOf v)
      | other => .error ("Unknown context type: " ++ pyStrOf other)
  | _ => .ok Option.none

/-- `_build_initial_messages`. -/
def buildInitialMessages (prompt : String) (context : Option String) : List UMessage :=
  (match context with
   | some c => if c ≠ "" then
       [UMessage.user ("Here is the context for your task:\n\n" ++ c)]
     else []
   | Option.none => []) ++ [UMessage.user prompt]

/-- Per-task result (`task_id`, `prompt`, `status`, `output`/`error`). -/
structure SubAgentResult where
  task_id : Nat
  prompt : String
  status : String
  output : Option String
  error : Option String
deriving Repr, DecidableEq

/-- The body of `_spawn_subagent` after the task spec has been parsed
into a prompt and a context spec. -/
def spawnParsed (env : SubAgentEnv) (timeout : Int) (prompt : String)
    (context_spec : PyVal) (task_id : Nat) : Except String SubAgentResult :=
  match prepareContext env context_spec with
  | .error e =>
      .ok { task_id := task_id, prompt := prompt, status := "error",
            output := Option.none,
            error := some ("Context preparation failed: " ++ e) }
  | .ok context =>
      -- initial messages seed the child; its behaviour is `env.chat`
      let _initial := buildInitialMessages prompt context
      match env.chat task_id with
      | .completed text =>
          .ok { task_id := task_id, prompt := prompt, status := "success",
                output := some text, error := Option.none }
      | .timedOut =>
          .ok { task_id := task_id, prompt := prompt, status := "error",
                output := Option.none,
                error := some ("Sub-agent timed out after " ++ toString timeout
                  ++ " seconds") }
      | .raises msg =>
          .ok { task_id := task_id, prompt := prompt, status := "error",
                output := Option.none, error := some msg }

/-- `_spawn_subagent` (run_subagents.py, lines 138–257): parse the task
spec; prepare context (a failure becomes this one task's error result);
run the child's `chat("")` under the timeout; catch everything else in
the outer `except`.  The `Except.error` case is an exception escaping
`_spawn_subagent` itself: for a task that is neither a string nor a
dict, the outer handler's own `task_spec.get("prompt", "unknown")`
raises `AttributeError`. -/
def spawnSubagent (env : SubAgentEnv) (yaml : YamlData) (task_spec : PyVal)
    (task_id : Nat) (_max_turns : Option Int) : Except String SubAgentResult :=
  let timeout := (OpusConfig.from_yaml yaml).default_timeout
  match task_spec with
  | .dict d =>
      if ¬ pyTruthy (dictGet d "prompt") then
        -- ValueError caught by the outer except; its fallback prompt is
        -- `task_spec.get("prompt", "unknown")`
        .ok { task_id := task_id,
              prompt := pyStrOf (dictGetD d "prompt" (.str "unknown")),
              status := "error", output := Option.none,
              error := some "Task dict must have 'prompt' field" }
      else
        let prompt :=
          match dictGet d "prompt" with
          | .str prompt => prompt
          | v => pyStrOf v
        spawnParsed env timeout prompt (dictGet d "context") task_id
  | .str prompt => spawnParsed env timeout prompt .none task_id
  | v => .error ("AttributeError: '" ++ pyStrOf v ++ "' has no attribute 'get'")

/-- `metadata.execution_summary.successful`. -/
def summarySuccessful (results : List SubAgentResult) : Nat :=
  (results.filter (fun r => r.status == "success")).length

/-- `metadata.execution_summary.failed`. -/
def summaryFailed (results : List SubAgentResult) : Nat :=
  (results.filter (fun r => r.status == "error")).length

/-- Return value of `execute_run_subagents`: the validation-error dict,
or the results list plus the execution mode it reports (the summary
counts are computed from the results by `summarySuccessful` /
`summaryFailed`). -/
inductive RunReturn where
  | error (msg : String)
  | ok (results : List SubAgentResult) (mode : String)
deriving Repr, DecidableEq

/-- `args.get("max_turns")` narrowed to the integer the schema allows
(`None` otherwise). -/
def argsMaxTurns (args : List (String × PyVal)) : Option Int :=
  match dictGet args "max_turns" with
  | .int n => some n
  | _ => Option.none

/-- Sequence a list of fallible computations, stopping at the first
escaping exception (the outer `try`/`except` of
`execute_run_subagents`). -/
def collectExcept : List (Except String SubAgentResult) →
    Except String (List SubAgentResult)
  | [] => .ok []
  | .error e :: _ => .error e
  | .ok r :: rest =>
      match collectExcept rest with
      | .ok rs => .ok (r :: rs)
      | .error e => .error e

/-- `execute_run_subagents` (run_subagents.py, lines 314–402), also
returning the list of `_spawn_subagent` invocations it performed.
Parallel mode (`asyncio.gather` over the enumerated tasks, order
preserving) and sequential mode (a loop appending per task) produce the
same `(task_id, task)`-indexed result list; an exception escaping a
spawn is caught by the outer `except` and turned into a batch-level
error dict. -/
def executeRunSubagents (env : SubAgentEnv) (yaml : YamlData)
    (args : List (String × PyVal)) : RunReturn × List (Nat × PyVal) :=
  let tasks := dictGetD args "tasks" (.list [])
  let execution_mode := dictGetD args "execution_mode" (.str "parallel")
  let max_turns : Option Int := argsMaxTurns args
  if ¬ pyTruthy tasks then (.error "Missing required parameter: tasks", [])
  else
    match tasks with
    | .list l =>
        if l.length = 0 then (.error "tasks list cannot be empty", [])
        else if l.length > MAX_SUBAGENTS then
          (.error ("Cannot run more than " ++ toString MAX_SUBAGENTS
            ++ " sub-agents at once"), [])
        else if ¬ pyInList execution_mode [.str "parallel", .str "sequential"] then
          (.error "execution_mode must be 'parallel' or 'sequential'", [])
        else
          let invocations := l.enum
          match collectExcept
              (invocations.map (fun p => spawnSubagent env yaml p.2 p.1 max_turns)) with
          | .ok results => (.ok results (pyStrOf execution_mode), invocations)
          | .error e => (.error ("Error running sub-agents: " ++ e), invocations)
    | _ => (.error "tasks must be a list", [])

/-- C8: whenever the tasks argument is missing or empty (falsy), or not
a list, or longer than `MAX_SUBAGENTS = 10`, or the execution mode is
neither `"parallel"` nor `"sequential"`, `execute_run_subagents` returns
an error dict and performs no `_spawn_subagent` invocation at all. -/
theorem run_subagents_validation (env : SubAgentEnv) (yaml : YamlData)
    (args : List (String × PyVal))
    (hbad :
      pyTruthy (dictGetD args "tasks" (.list [])) = false
      ∨ (∀ l, dictGetD args "tasks" (.list []) ≠ .list l)
      ∨ (∃ l, dictGetD args "tasks" (.list []) = .list l ∧ l.length > MAX_SUBAGENTS)
      ∨ pyInList (dictGetD args "execution_mode" (.str "parallel"))
          [.str "parallel", .str "sequential"] = false) :
    (∃ msg, (executeRunSubagents env yaml args).1 = RunReturn.error msg)
    ∧ (executeRunSubagents env yaml args).2 = [] := by
  unfold executeRunSubagents
  dsimp only
  split
  · exact ⟨⟨_, rfl⟩, rfl⟩
  · next htruthy =>
    split
    · next l hl =>
      split
      · exact ⟨⟨_, rfl⟩, rfl⟩
      · next hlen0 =>
        split
        · exact ⟨⟨_, rfl⟩, rfl⟩
        · next hlen10 =>
          split
          · exact ⟨⟨_, rfl⟩, rfl⟩
          · next hmode =>
            exfalso
            rcases hbad with hbad | hbad | hbad | hbad
            · rw [hbad] at htruthy
              exact htruthy (by simp)
            · exact hbad l hl
            · obtain ⟨l', hl', hgt⟩ := hbad
              rw [hl] at hl'
              cases hl'
              exact hlen10 hgt
            · rw [hbad] at hmode
              exact hmode (by simp)
    · exact ⟨⟨_, rfl⟩, rfl⟩

theorem spawnParsed_ok (env : SubAgentEnv) (timeout : Int) (prompt : String)
    (cs : PyVal) (i : Nat) : ∃ r, spawnParsed env timeout prompt cs i = .ok r := by
  unfold spawnParsed
  split
  · exact ⟨_, rfl⟩
  · dsimp only
    split <;> exact ⟨_, rfl⟩

/-- A task that is a prompt string or a task dict never lets an
exception escape `_spawn_subagent`. -/
theorem spawnSubagent_ok (env : SubAgentEnv) (yaml : YamlData) (t : PyVal)
    (i : Nat) (mt : Option Int)
    (hwf : (∃ s, t = PyVal.str s) ∨ ∃ d, t = PyVal.dict d) :
    ∃ r, spawnSubagent env yaml t i mt = .ok r := by
  rcases hwf with ⟨s, rfl⟩ | ⟨d, rfl⟩
  · exact spawnParsed_ok env _ s .none i
  · unfold spawnSubagent
    dsimp only
    split
    · exact ⟨_, rfl⟩
    · exact spawnParsed_ok env _ _ _ i

theorem collectExcept_all_ok (xs : List (Except String SubAgentResult))
    (h : ∀ x ∈ xs, ∃ r, x = .ok r) :
    ∃ rs, collectExcept xs = .ok rs ∧ xs = rs.map Except.ok := by
  induction xs with
  | nil => exact ⟨[], rfl, rfl⟩
  | cons x rest ih =>
      obtain ⟨r, rfl⟩ := h x (by simp)
      obtain ⟨rs, hc, hmap⟩ := ih (fun y hy => h y (List.mem_cons_of_mem _ hy))
      exact ⟨r :: rs, by simp [collectExcept, hc], by simp [hmap]⟩

/-- C7: on a valid batch whose tasks are prompt strings or task dicts,
`execute_run_subagents` returns exactly one result per task, result `i`
being exactly `_spawn_subagent` applied to task `i` in isolation;
a task whose context preparation fails yields a `status = "error"`
result carrying `Context preparation failed: ...` for that task only,
and a task whose child times out yields a `status = "error"` result
carrying the timeout message — in both cases without touching any
sibling's result. -/
theorem run_subagents_isolates_failures (env : SubAgentEnv) (yaml : YamlData)
    (args : List (String × PyVal)) (l : List PyVal)
    (htasks : dictGetD args "tasks" (.list []) = .list l)
    (hne : l ≠ [])
    (hlen : l.length ≤ MAX_SUBAGENTS)
    (hmode : pyInList (dictGetD args "execution_mode" (.str "parallel"))
      [.str "parallel", .str "sequential"] = true)
    (hwf : ∀ t ∈ l, (∃ s, t = PyVal.str s) ∨ ∃ d, t = PyVal.dict d) :
    (∃ results,
      (executeRunSubagents env yaml args).1
        = RunReturn.ok results
            (pyStrOf (dictGetD args "execution_mode" (.str "parallel")))
      ∧ results.length = l.length
      ∧ ∀ (i : Nat) (hi : i < l.length),
          results[i]? = (spawnSubagent env yaml l[i] i (argsMaxTurns args)).toOption)
    ∧ (∀ (i : Nat) (d : List (String × PyVal)) (prompt msg : String),
        dictGet d "prompt" = .str prompt → prompt ≠ "" →
        prepareContext env (dictGet d "context") = .error msg →
        spawnSubagent env yaml (.dict d) i (argsMaxTurns args)
          = .ok { task_id := i, prompt := prompt, status := "error",
                  output := Option.none,
                  error := some ("Context preparation failed: " ++ msg) })
    ∧ (∀ (i : Nat) (prompt : String),
        env.chat i = ChatOutcome.timedOut →
        spawnSubagent env yaml (.str prompt) i (argsMaxTurns args)
          = .ok { task_id := i, prompt := prompt, status := "error",
                  output := Option.none,
                  error := some ("Sub-agent timed out after "
                    ++ toString (OpusConfig.from_yaml yaml).default_timeout
                    ++ " seconds") }) := by
  refine ⟨?_, ?_, ?_⟩
  · -- batch shape
    have hallok : ∀ x ∈ l.enum.map
        (fun p => spawnSubagent env yaml p.2 p.1 (argsMaxTurns args)),
        ∃ r, x = .ok r := by
      intro x hx
      obtain ⟨p, hp, rfl⟩ := List.mem_map.mp hx
      exact spawnSubagent_ok env yaml p.2 p.1 (argsMaxTurns args)
        (hwf p.2 (List.getElem?_mem (List.mem_enum_iff_getElem?.mp hp)))
    obtain ⟨rs, hc, hmap⟩ := collectExcept_all_ok _ hallok
    refine ⟨rs, ?_, ?_, ?_⟩
    · unfold executeRunSubagents
      dsimp only
      rw [htasks]
      rw [if_neg (by simp [pyTruthy, hne])]
      dsimp only
      rw [if_neg (by simpa using fun h => hne (List.length_eq_zero.mp h))]
      rw [if_neg (by omega)]
      rw [if_neg (by rw [hmode]; simp)]
      rw [hc]
    · have := congrArg List.length hmap
      simpa [List.enum_length] using this.symm
    · intro i hi
      have hmapi := congrArg (fun xs => xs[i]?) hmap
      simp only [List.getElem?_map, List.getElem?_enum,
        List.getElem?_eq_getElem hi, Option.map_some'] at hmapi
      cases hrs : rs[i]? with
      | none => rw [hrs] at hmapi; simp at hmapi
      | some r =>
          rw [hrs] at hmapi
          simp only [Option.map_some'] at hmapi
          have h2 : spawnSubagent env yaml l[i] i (argsMaxTurns args) = Except.ok r :=
            Option.some.inj hmapi
          rw [h2]
          rfl
  · -- context-preparation failure
    intro i d prompt msg hprompt hpne hctx
    have hpt : pyTruthy (dictGet d "prompt") = true := by
      rw [hprompt]
      simpa [pyTruthy] using hpne
    unfold spawnSubagent
    dsimp only
    rw [if_neg (by simp [hpt])]
    rw [hprompt]
    dsimp only
    unfold spawnParsed
    rw [hctx]
  · -- timeout
    intro i prompt htime
    unfold spawnSubagent spawnParsed
    dsimp only
    rw [htime]
    rfl

/-- Concrete environment for the C7 witness: no file exists, children
complete normally. -/
def envSub1 : SubAgentEnv :=
  { fs := fun _ => Option.none
    fetch := fun _ => .error "no network"
    chat := fun _ => .completed "done" }

/-- The test batch from `test_subagents.py::test_error_handling`: one
task with a nonexistent context file, one plain task. -/
def tasksC7 : List PyVal :=
  [PyVal.dict
     [("prompt", .str "Analyze this file"),
      ("context", .dict [("type", .str "file"), ("path", .str "/nonexistent/file.txt")])],
   PyVal.str "This task should succeed"]

def argsC7 : List (String × PyVal) :=
  [("tasks", .list tasksC7), ("execution_mode", .str "parallel")]

/-- Witness for C7 at the concrete two-task batch with one bad context
file. -/
theorem run_subagents_isolates_failures_witness :
    (∃ results,
      (executeRunSubagents envSub1 ⟨some 25, some 30⟩ argsC7).1
        = RunReturn.ok results
            (pyStrOf (dictGetD argsC7 "execution_mode" (.str "parallel")))
      ∧ results.length = tasksC7.length
      ∧ ∀ (i : Nat) (hi : i < tasksC7.length),
          results[i]?
            = (spawnSubagent envSub1 ⟨some 25, some 30⟩ tasksC7[i] i
                (argsMaxTurns argsC7)).toOption)
    ∧ (∀ (i : Nat) (d : List (String × PyVal)) (prompt msg : String),
        dictGet d "prompt" = .str prompt → prompt ≠ "" →
        prepareContext envSub1 (dictGet d "context") = .error msg →
        spawnSubagent envSub1 ⟨some 25, some 30⟩ (.dict d) i (argsMaxTurns argsC7)
          = .ok { task_id := i, prompt := prompt, status := "error",
                  output := Option.none,
                  error := some ("Context preparation failed: " ++ msg) })
    ∧ (∀ (i : Nat) (prompt : String),
        envSub1.chat i = ChatOutcome.timedOut →
        spawnSubagent envSub1 ⟨some 25, some 30⟩ (.str prompt) i (argsMaxTurns argsC7)
          = .ok { task_id := i, prompt := prompt, status := "error",
                  output := Option.none,
                  error := some ("Sub-agent timed out after "
                    ++ toString (OpusConfig.from_yaml ⟨some 25, some 30⟩).default_timeout
                    ++ " seconds") }) :=
  run_subagents_isolates_failures envSub1 ⟨some 25, some 30⟩ argsC7 tasksC7
    rfl
    (by simp [tasksC7])
    (by decide)
    (by decide)
    (by
      intro t ht
      simp only [tasksC7, List.mem_cons, List.not_mem_nil, or_false] at ht
      rcases ht with rfl | rfl
      · exact Or.inr ⟨_, rfl⟩
      · exact Or.inl ⟨_, rfl⟩)

/-- Trivial environment for closed instantiations. -/
def envSub0 : SubAgentEnv :=
  { fs := fun _ => Option.none
    fetch := fun _ => .error "no network"
    chat := fun _ => .completed "ok" }

/-- Witness for C8: `tasks = []` is rejected before any spawn. -/
theorem run_subagents_validation_witness :
    (∃ msg, (executeRunSubagents envSub0 ⟨some 25, some 30⟩
        [("tasks", PyVal.list [])]).1 = RunReturn.error msg)
    ∧ (executeRunSubagents envSub0 ⟨some 25, some 30⟩
        [("tasks", PyVal.list [])]).2 = [] :=
  run_subagents_validation envSub0 ⟨some 25, some 30⟩ [("tasks", PyVal.list [])]
    (Or.inl rfl)

/-! ## `tools/executor.py` — `_build_command_array` and `_run_command`

The executor quotes argument values with `shlex.quote`, substitutes them
into the script template, splits the result with `shlex.split`, and runs
the array via `asyncio.create_subprocess_exec` (never a shell).  The
CPython `shlex` behaviour used here (`posix=True`,
`whitespace_split=True`, no comments) is modelled character by
character: whitespace is ` \t\r\n`; single quotes are literal runs;
double quotes honour `\"` and `\\`; a backslash outside quotes escapes
the next character. -/

/-- `shlex._find_unsafe`: the ASCII regex class of word characters plus
`@ % + = : , . / -` — the characters `shlex.quote` leaves bare. -/
def shlexSafeChar (c : Char) : Bool :=
  c.isAlphanum || c = '_' || c = '@' || c = '%' || c = '+' || c = '='
    || c = ':' || c = ',' || c = '.' || c = '/' || c = '-'

/-- `s.replace("'", "'\"'\"'")` applied per character. -/
def escQuoteChar (c : Char) : List Char :=
  if c = '\'' then ['\'', '"', '\'', '"', '\''] else [c]

/-- `shlex.quote`. -/
def shlexQuote (s : String) : String :=
  if s = "" then "''"
  else if s.toList.all shlexSafeChar then s
  else String.mk ('\'' :: (s.toList.flatMap escQuoteChar ++ ['\'']))

/-- `shlex.whitespace = " \t\r\n"`. -/
def isShlexWs (c : Char) : Bool :=
  c = ' ' || c = '\t' || c = '\r' || c = '\n'

/-- Tokenizer state of the posix `shlex` automaton. -/
inductive LexState where
  | neutral
  | single
  | double
  | escaped
  | escapedDouble
deriving Repr, DecidableEq

/-- One pass of the posix `shlex` tokenizer (`whitespace_split=True`,
`commenters=''`): the `Option` is the current token (`none` = no token
started; a token begun by quotes may be empty). -/
def lexGo : LexState → Option (List Char) → List Char → Except String (List (List Char))
  | .neutral, Option.none, [] => .ok []
  | .neutral, some t, [] => .ok [t]
  | .single, _, [] => .error "No closing quotation"
  | .double, _, [] => .error "No closing quotation"
  | .escaped, _, [] => .error "No escape character"
  | .escapedDouble, _, [] => .error "No escape character"
  | .neutral, cur, c :: rest =>
      if isShlexWs c then
        match cur with
        | some t =>
            (match lexGo .neutral Option.none rest with
             | .ok ts => .ok (t :: ts)
             | .error e => .error e)
        | Option.none => lexGo .neutral Option.none rest
      else if c = '\'' then lexGo .single (some (cur.getD [])) rest
      else if c = '"' then lexGo .double (some (cur.getD [])) rest
      else if c = '\\' then lexGo .escaped (some (cur.getD [])) rest
      else lexGo .neutral (some (cur.getD [] ++ [c])) rest
  | .single, cur, c :: rest =>
      if c = '\'' then lexGo .neutral cur rest
      else lexGo .single (some (cur.getD [] ++ [c])) rest
  | .double, cur, c :: rest =>
      if c = '"' then lexGo .neutral cur rest
      else if c = '\\' then lexGo .escapedDouble cur rest
      else lexGo .double (some (cur.getD [] ++ [c])) rest
  | .escaped, cur, c :: rest => lexGo .neutral (some (cur.getD [] ++ [c])) rest
  | .escapedDouble, cur, c :: rest =>
      if c = '"' || c = '\\' then lexGo .double (some (cur.getD [] ++ [c])) rest
      else lexGo .double (some (cur.getD [] ++ ['\\', c])) rest

/-- `shlex.split`. -/
def shlexSplit (s : String) : Except String (List String) :=
  match lexGo .neutral Option.none s.toList with
  | .ok ts => .ok (ts.map fun t => String.mk t)
  | .error e => .error e

/-- The executor's own metacharacter check
(`' ' in str_value or any(c in str_value for c in [...])`). -/
def executorSpecialChar (c : Char) : Bool :=
  c = ' ' || c = '"' || c = '\'' || c = '\\' || c = '|' || c = '&' || c = ';'
    || c = '<' || c = '>' || c = '(' || c = ')' || c = '`' || c = '$'

def needsExecutorQuote (s : String) : Bool :=
  s.toList.any executorSpecialChar

/-- The `safe_args` conversion of `_build_command_array` (executor.py,
lines 129–148). -/
def safeArg : PyVal → String
  | .none => "''"
  | .str "" => "''"
  | .bool b => if b then "true" else "false"
  | .dict d => shlexQuote (jsonDumps (.dict d))
  | .list l => shlexQuote (jsonDumps (.list l))
  | .str s => if needsExecutorQuote s then shlexQuote s else s
  | .int n => if needsExecutorQuote (toString n) then shlexQuote (toString n) else toString n

/-- A script template, already parsed into literal runs and `{param}`
placeholders (Python `str.format` structure). -/
inductive TemplatePart where
  | lit (s : String)
  | param (name : String)
deriving Repr

/-- `script_template.format(**safe_args)`; a missing key mirrors
`raise ValueError(f"Missing required parameter: {e}")` where the
`KeyError` renders with quotes. -/
def formatTemplate (parts : List TemplatePart) (safe_args : List (String × String)) :
    Except String String :=
  match parts with
  | [] => .ok ""
  | .lit s :: rest =>
      (match formatTemplate rest safe_args with
       | .ok tail => .ok (s ++ tail)
       | .error e => .error e)
  | .param n :: rest =>
      match safe_args.lookup n with
      | some v =>
          (match formatTemplate rest safe_args with
           | .ok tail => .ok (v ++ tail)
           | .error e => .error e)
      | Option.none => .error ("Missing required parameter: '" ++ n ++ "'")

/-- `ToolExecutor._build_command_array` (executor.py, lines 101–165). -/
def buildCommandArray (script_template : List TemplatePart)
    (arguments : List (String × PyVal)) : Except String (List String) :=
  let safe_args := arguments.map (fun kv => (kv.1, safeArg kv.2))
  match formatTemplate script_template safe_args with
  | .error e => .error e
  | .ok substituted =>
      match shlexSplit substituted with
      | .error e => .error ("Invalid command syntax: " ++ e)
      | .ok command_array =>
          if command_array.isEmpty then .error "Empty command after substitution"
          else .ok command_array

/-- How `_run_command` launches the process. -/
inductive Invocation where
  | exec (argv : List String)
  | shell (command : String)
deriving Repr, DecidableEq

/-- `_run_command` uses `asyncio.create_subprocess_exec(*command_array, ...)`
— an argument vector, never a shell. -/
def runCommandInvocation (command_array : List String) : Invocation :=
  .exec command_array

/-- A character the tokenizer treats as plain data in neutral state. -/
def plainChar (c : Char) : Bool :=
  !isShlexWs c && !(c == '\'') && !(c == '"') && !(c == '\\')

theorem lexGo_neutral_plain_step (c : Char) (cur : Option (List Char))
    (rest : List Char) (hc : plainChar c = true) :
    lexGo .neutral cur (c :: rest) = lexGo .neutral (some (cur.getD [] ++ [c])) rest := by
  simp only [plainChar, Bool.and_eq_true, Bool.not_eq_true'] at hc
  obtain ⟨⟨⟨h1, h2⟩, h3⟩, h4⟩ := hc
  rw [lexGo.eq_def]
  simp only [h1, Bool.false_eq_true, if_false, beq_eq_false_iff_ne.mp h2,
    beq_eq_false_iff_ne.mp h3, beq_eq_false_iff_ne.mp h4, if_neg, not_false_iff]

theorem lexGo_flush (t : List Char) (rest : List Char) :
    lexGo .neutral (some t) (' ' :: rest)
      = match lexGo .neutral Option.none rest with
        | .ok ts => .ok (t :: ts)
        | .error e => .error e := rfl

theorem lexGo_plain_accum (w : List Char) (t rest : List Char)
    (hw : ∀ c ∈ w, plainChar c = true) :
    lexGo .neutral (some t) (w ++ rest) = lexGo .neutral (some (t ++ w)) rest := by
  induction w generalizing t with
  | nil => simp
  | cons c w' ih =>
      rw [List.cons_append, lexGo_neutral_plain_step c (some t) _ (hw c (by simp))]
      simp only [Option.getD_some]
      rw [ih (t ++ [c]) (fun d hd => hw d (by simp [hd]))]
      simp

/-- A run of plain characters starts a token and leaves the tokenizer
in neutral state holding it, whatever follows. -/
theorem lexGo_openWord (w : List Char) (hne : w ≠ [])
    (hw : ∀ c ∈ w, plainChar c = true) (rest : List Char) :
    lexGo .neutral Option.none (w ++ rest) = lexGo .neutral (some w) rest := by
  obtain ⟨c, w', rfl⟩ := List.exists_cons_of_ne_nil hne
  rw [List.cons_append, lexGo_neutral_plain_step c Option.none _ (hw c (by simp))]
  simp only [Option.getD_none, List.nil_append]
  rw [lexGo_plain_accum w' [c] rest (fun d hd => hw d (by simp [hd]))]
  simp only [List.singleton_append]

theorem lexGo_escQ (v : List Char) (t rest : List Char) :
    lexGo .single (some t) (v.flatMap escQuoteChar ++ ('\'' :: rest))
      = lexGo .neutral (some (t ++ v)) rest := by
  induction v generalizing t with
  | nil =>
      show lexGo .single (some t) ('\'' :: rest) = lexGo .neutral (some (t ++ [])) rest
      rw [List.append_nil]
      rfl
  | cons c v' ih =>
      by_cases hc : c = '\''
      · subst hc
        simp only [List.flatMap_cons]
        rw [show escQuoteChar '\'' = ['\'', '"', '\'', '"', '\''] from rfl]
        simp only [List.cons_append, List.append_assoc]
        show lexGo .single (some (t ++ ['\''])) (v'.flatMap escQuoteChar ++ '\'' :: rest)
          = _
        rw [ih (t ++ ['\''])]
        simp
      · simp only [List.flatMap_cons]
        rw [show escQuoteChar c = [c] from by simp [escQuoteChar, hc]]
        simp only [List.cons_append, List.singleton_append]
        rw [lexGo.eq_def]
        simp only [hc, if_false, Option.getD_some, if_neg, not_false_iff,
          List.nil_append]
        rw [ih (t ++ [c])]
        simp

theorem special_not_safe (c : Char) (h : executorSpecialChar c = true) :
    shlexSafeChar c = false := by
  simp only [executorSpecialChar, Bool.or_eq_true, decide_eq_true_eq] at h
  rcases h with
    ((((((((((((rfl | rfl) | rfl) | rfl) | rfl) | rfl) | rfl) | rfl) | rfl) | rfl)
      | rfl) | rfl) | rfl) <;> rfl

theorem safe_plain (c : Char) (h : shlexSafeChar c = true) : plainChar c = true := by
  have hw : isShlexWs c = false := by
    cases hw : isShlexWs c
    · rfl
    · exfalso
      simp only [isShlexWs, Bool.or_eq_true, decide_eq_true_eq] at hw
      rcases hw with ((rfl | rfl) | rfl) | rfl <;> exact absurd h (by decide)
  have hq1 : (c == '\'') = false := by
    cases hq : c == '\''
    · rfl
    · have : c = '\'' := by simpa using hq
      subst this; exact absurd h (by decide)
  have hq2 : (c == '"') = false := by
    cases hq : c == '"'
    · rfl
    · have : c = '"' := by simpa using hq
      subst this; exact absurd h (by decide)
  have hq3 : (c == '\\') = false := by
    cases hq : c == '\\'
    · rfl
    · have : c = '\\' := by simpa using hq
      subst this; exact absurd h (by decide)
  simp [plainChar, hw, hq1, hq2, hq3]

theorem notspecial_plain (c : Char) (hs : executorSpecialChar c = false)
    (hw : isShlexWs c = false) : plainChar c = true := by
  simp only [executorSpecialChar, Bool.or_eq_false_iff, decide_eq_false_iff_not] at hs
  obtain ⟨⟨⟨⟨⟨⟨⟨⟨⟨⟨⟨⟨h1, h2⟩, h3⟩, h4⟩, h5⟩, h6⟩, h7⟩, h8⟩, h9⟩, h10⟩, h11⟩, h12⟩, h13⟩ := hs
  simp [plainChar, hw, beq_eq_false_iff_ne.mpr h3, beq_eq_false_iff_ne.mpr h2,
    beq_eq_false_iff_ne.mpr h4]

theorem shlexQuote_wraps (v : String) (hne : v ≠ "")
    (hnsq : v.toList.all shlexSafeChar = false) :
    shlexQuote v = String.mk ('\'' :: (v.toList.flatMap escQuoteChar ++ ['\''])) := by
  unfold shlexQuote
  rw [if_neg hne, if_neg (show ¬(v.toList.all shlexSafeChar = true) from by
    rw [hnsq]; exact Bool.false_ne_true)]

theorem safeArg_str_eq (v : String) (hne : v ≠ "") :
    safeArg (PyVal.str v) = if needsExecutorQuote v then shlexQuote v else v := by
  rw [safeArg.eq_def]
  simp [hne]

/-- Tokenizing the executor's `safe_args` rendering of a string value:
if the value triggers the executor's quoting, or contains no `shlex`
whitespace at all, the tokenizer consumes the rendering and is left in
neutral state holding exactly the original value as its token, whatever
follows on the command line. -/
theorem safeArg_str_open (v : String)
    (hv : needsExecutorQuote v = true
      ∨ v.toList.all (fun c => !isShlexWs c) = true) (rest : List Char) :
    lexGo .neutral Option.none ((safeArg (PyVal.str v)).toList ++ rest)
      = lexGo .neutral (some v.toList) rest := by
  by_cases hemp : v = ""
  · subst hemp
    rfl
  · by_cases hq : needsExecutorQuote v = true
    · obtain ⟨cbad, hcbadmem, hcbadspec⟩ := List.any_eq_true.mp hq
      have hnsq : v.toList.all shlexSafeChar = false := by
        rw [List.all_eq_false]
        refine ⟨cbad, hcbadmem, ?_⟩
        simp [special_not_safe cbad hcbadspec]
      rw [safeArg_str_eq v hemp, if_pos hq, shlexQuote_wraps v hemp hnsq]
      show lexGo .neutral Option.none
        (('\'' :: (v.toList.flatMap escQuoteChar ++ ['\''])) ++ rest) = _
      rw [List.cons_append, List.append_assoc, List.singleton_append]
      show lexGo .single (some []) (v.toList.flatMap escQuoteChar ++ '\'' :: rest) = _
      rw [lexGo_escQ v.toList [] rest]
      simp
    · have hp : v.toList.all (fun c => !isShlexWs c) = true := by
        rcases hv with hv | hv
        · exact absurd hv hq
        · exact hv
      have hplain : ∀ c ∈ v.toList, plainChar c = true := by
        intro c hcmem
        refine notspecial_plain c ?_ ?_
        · have hq' : v.toList.any executorSpecialChar = false := by
            simpa [needsExecutorQuote] using hq
          simpa using List.any_eq_false.mp hq' c hcmem
        · have := List.all_eq_true.mp hp c hcmem
          simpa using this
      rw [safeArg_str_eq v hemp, if_neg hq]
      refine lexGo_openWord v.toList ?_ hplain rest
      intro h
      apply hemp
      rw [← show String.mk v.toList = v from rfl, h]

theorem str_toList_append (a b : String) : (a ++ b).toList = a.toList ++ b.toList := by
  cases a; cases b; rfl

/-! ### Whitespace-separated script templates

Every script template in the repository — the builtin `bash -c {command}`
and `cat {file}` (loader.py, lines 147–180), and the documented
`python tool.py {include_env}` shape (executor.py, lines 118–123) — is a
whitespace-separated word list in which each `{param}` placeholder
stands as its own word.  `TWord` is one such word; `templateParts`
renders the word list into the literal/placeholder segments of the
format string, words separated by single spaces. -/

/-- One word of a whitespace-separated script template. -/
inductive TWord where
  | lit (w : String)
  | param (name : String)
deriving Repr

def TWord.part : TWord → TemplatePart
  | .lit w => TemplatePart.lit w
  | .param n => TemplatePart.param n

/-- Render a word list as the parsed format string, one space between
words (`bash -c {command}` ↦ `[lit "bash", lit " ", lit "-c", lit " ",
param "command"]`). -/
def templateParts : List TWord → List TemplatePart
  | [] => []
  | [w] => [w.part]
  | w :: rest => w.part :: TemplatePart.lit " " :: templateParts rest

/-- Join character-level words with single spaces. -/
def joinSpace : List (List Char) → List Char
  | [] => []
  | [x] => x
  | x :: rest => x ++ ' ' :: joinSpace rest

/-- The substituted text of one template word (the placeholder case as
`str.format` produces it from `safe_args`; the fallback branch never
applies once the placeholder is bound). -/
def renderWordStr (args : List (String × PyVal)) : TWord → String
  | .lit w => w
  | .param n =>
      match (args.map fun kv => (kv.1, safeArg kv.2)).lookup n with
      | some s => s
      | Option.none => ""

/-- The argv element each template word must become (the fallback
branch never applies once the placeholder is bound to a string). -/
def expectedTok (args : List (String × PyVal)) : TWord → String
  | .lit w => w
  | .param n =>
      match args.lookup n with
      | some (PyVal.str v) => v
      | _ => ""

theorem lookup_map_safeArg (args : List (String × PyVal)) (n : String) :
    (args.map fun kv => (kv.1, safeArg kv.2)).lookup n
      = (args.lookup n).map safeArg := by
  induction args with
  | nil => rfl
  | cons kv rest ih =>
      obtain ⟨k, x⟩ := kv
      simp only [List.map_cons, List.lookup]
      cases hbe : n == k <;> simp [hbe, ih]

/-- Tokenizing space-joined words, each of which opens into exactly one
token, yields exactly those tokens. -/
theorem lexGo_joinSpace (ws : List (List Char × List Char)) (hne : ws ≠ [])
    (h : ∀ p ∈ ws, ∀ rest, lexGo .neutral Option.none (p.1 ++ rest)
        = lexGo .neutral (some p.2) rest) :
    lexGo .neutral Option.none (joinSpace (ws.map Prod.fst))
      = .ok (ws.map Prod.snd) := by
  induction ws with
  | nil => exact absurd rfl hne
  | cons p rest ih =>
      cases rest with
      | nil =>
          have hp := h p (by simp) []
          rw [List.append_nil] at hp
          simp only [List.map_cons, List.map_nil, joinSpace]
          rw [hp]
          rfl
      | cons q rest' =>
          simp only [List.map_cons, joinSpace]
          rw [h p (by simp) (' ' :: joinSpace (q.1 :: rest'.map Prod.fst))]
          rw [lexGo_flush]
          have ihq := ih (by simp) (fun r hr rest0 => h r (by simp [hr]) rest0)
          simp only [List.map_cons] at ihq
          rw [ihq]

/-- Substituting a word template produces the space-joined rendered
words, provided every placeholder is bound. -/
theorem formatTemplate_words (tws : List TWord) (args : List (String × PyVal))
    (hne : tws ≠ [])
    (hbound : ∀ n, TWord.param n ∈ tws →
      ∃ s, (args.map fun kv => (kv.1, safeArg kv.2)).lookup n = some s) :
    ∃ S : String,
      formatTemplate (templateParts tws) (args.map fun kv => (kv.1, safeArg kv.2))
        = .ok S
      ∧ S.toList = joinSpace (tws.map (fun w => (renderWordStr args w).toList)) := by
  induction tws with
  | nil => exact absurd rfl hne
  | cons w tws' ih =>
      cases tws' with
      | nil =>
          cases w with
          | lit s =>
              refine ⟨s ++ "", rfl, ?_⟩
              simp [str_toList_append, joinSpace, renderWordStr]
          | param n =>
              obtain ⟨s0, hlk⟩ := hbound n (by simp)
              refine ⟨s0 ++ "", ?_, ?_⟩
              · show (match (args.map fun kv => (kv.1, safeArg kv.2)).lookup n with
                  | some v =>
                      (match formatTemplate []
                          (args.map fun kv => (kv.1, safeArg kv.2)) with
                       | .ok tail => Except.ok (v ++ tail)
                       | .error e => Except.error e)
                  | Option.none =>
                      Except.error ("Missing required parameter: '" ++ n ++ "'"))
                  = Except.ok (s0 ++ "")
                rw [hlk]
                rfl
              · simp only [List.map_cons, List.map_nil, joinSpace, renderWordStr, hlk]
                simp [str_toList_append]
      | cons q rest' =>
          obtain ⟨S', hS', hS'list⟩ := ih (by simp)
            (fun n hn => hbound n (List.mem_cons_of_mem _ hn))
          have htail : formatTemplate (TemplatePart.lit " " :: templateParts (q :: rest'))
              (args.map fun kv => (kv.1, safeArg kv.2)) = .ok (" " ++ S') := by
            show (match formatTemplate (templateParts (q :: rest'))
                (args.map fun kv => (kv.1, safeArg kv.2)) with
              | .ok tail => Except.ok (" " ++ tail)
              | .error e => Except.error e) = Except.ok (" " ++ S')
            rw [hS']
          cases w with
          | lit s =>
              refine ⟨s ++ (" " ++ S'), ?_, ?_⟩
              · show (match formatTemplate
                    (TemplatePart.lit " " :: templateParts (q :: rest'))
                    (args.map fun kv => (kv.1, safeArg kv.2)) with
                  | .ok tail => Except.ok (s ++ tail)
                  | .error e => Except.error e) = Except.ok (s ++ (" " ++ S'))
                rw [htail]
              · simp only [List.map_cons, joinSpace, renderWordStr]
                rw [str_toList_append, str_toList_append, hS'list]
                rfl
          | param n =>
              obtain ⟨s0, hlk⟩ := hbound n (by simp)
              refine ⟨s0 ++ (" " ++ S'), ?_, ?_⟩
              · show (match (args.map fun kv => (kv.1, safeArg kv.2)).lookup n with
                  | some v =>
                      (match formatTemplate
                          (TemplatePart.lit " " :: templateParts (q :: rest'))
                          (args.map fun kv => (kv.1, safeArg kv.2)) with
                       | .ok tail => Except.ok (v ++ tail)
                       | .error e => Except.error e)
                  | Option.none =>
                      Except.error ("Missing required parameter: '" ++ n ++ "'"))
                  = Except.ok (s0 ++ (" " ++ S'))
                rw [hlk, htail]
              · simp only [List.map_cons, joinSpace, renderWordStr, hlk]
                rw [str_toList_append, str_toList_append, hS'list]
                rfl

/-- C4 (amended): for every script-based tool call whose template is a
whitespace-separated word list in which each `{param}` placeholder
stands as its own word — the shape of every script template in the
repository — substitution uses shell-safe quoting and the command runs
via `exec` as an argument vector, never through a shell; every string
argument value that contains a space, quote, or one of the executor's
listed metacharacters, or that contains no `shlex` whitespace at all,
survives substitution and splitting as exactly one element of the
executed argument vector, at its placeholder's position.  (The original
unconditional claim fails for values containing tab, newline or
carriage return and none of the quoting-trigger characters — see the
counterexample — and a placeholder embedded inside a literal word
merges with it rather than yielding a standalone element, hence the
template scope.) -/
theorem build_command_words_one_element_per_value (tws : List TWord)
    (args : List (String × PyVal)) (hne : tws ≠ [])
    (hlits : ∀ w, TWord.lit w ∈ tws →
      w.toList ≠ [] ∧ ∀ c ∈ w.toList, plainChar c = true)
    (hparams : ∀ n, TWord.param n ∈ tws → ∃ v : String,
      args.lookup n = some (PyVal.str v)
      ∧ (needsExecutorQuote v = true
          ∨ v.toList.all (fun c => !isShlexWs c) = true)) :
    ∃ out : List String,
      buildCommandArray (templateParts tws) args = .ok out
      ∧ runCommandInvocation out = Invocation.exec out
      ∧ out.length = tws.length
      ∧ (∀ (i : Nat) (hi : i < tws.length) (w : String),
          tws[i] = TWord.lit w → out[i]? = some w)
      ∧ (∀ (i : Nat) (hi : i < tws.length) (n v : String),
          tws[i] = TWord.param n → args.lookup n = some (PyVal.str v) →
          out[i]? = some v) := by
  obtain ⟨S, hfmt, hSlist⟩ := formatTemplate_words tws args hne (by
    intro n hn
    obtain ⟨v, hlk, _⟩ := hparams n hn
    exact ⟨safeArg (PyVal.str v), by rw [lookup_map_safeArg, hlk]; rfl⟩)
  have htok : lexGo .neutral Option.none S.toList
      = .ok (tws.map (fun w => (expectedTok args w).toList)) := by
    rw [hSlist]
    have hjoin := lexGo_joinSpace
      (tws.map (fun w => ((renderWordStr args w).toList, (expectedTok args w).toList)))
      (by intro h; apply hne; simpa using congrArg List.length h)
      (by
        intro p hp rest
        obtain ⟨w, hw, rfl⟩ := List.mem_map.mp hp
        cases w with
        | lit s =>
            obtain ⟨hsne, hsplain⟩ := hlits s hw
            exact lexGo_openWord s.toList hsne hsplain rest
        | param n =>
            obtain ⟨v, hlk, hcond⟩ := hparams n hw
            have hr : renderWordStr args (TWord.param n) = safeArg (PyVal.str v) := by
              simp only [renderWordStr, lookup_map_safeArg, hlk, Option.map_some']
            have he : expectedTok args (TWord.param n) = v := by
              simp only [expectedTok, hlk]
            rw [hr, he]
            exact safeArg_str_open v hcond rest)
    simpa [List.map_map, Function.comp] using hjoin
  obtain ⟨w0, tws0, rfl⟩ := List.exists_cons_of_ne_nil hne
  refine ⟨(w0 :: tws0).map (expectedTok args), ?_, rfl, by simp, ?_, ?_⟩
  · have hsplit : shlexSplit S = .ok ((w0 :: tws0).map (expectedTok args)) := by
      unfold shlexSplit
      rw [htok]
      simp only [List.map_map]
      rfl
    unfold buildCommandArray
    dsimp only
    rw [hfmt]
    dsimp only
    rw [hsplit]
    rfl
  · intro i hi w hw
    rw [List.getElem?_map, List.getElem?_eq_getElem hi, hw]
    rfl
  · intro i hi n v hn hlk
    rw [List.getElem?_map, List.getElem?_eq_getElem hi, hn]
    simp only [Option.map_some', expectedTok, hlk]

/-- Witness for the amended C4 at the repository's own builtin template
`bash -c {command}` with an argument value full of shell
metacharacters. -/
theorem build_command_words_one_element_per_value_witness :
    ∃ out : List String,
      buildCommandArray
          (templateParts [TWord.lit "bash", TWord.lit "-c", TWord.param "command"])
          [("command", PyVal.str "echo hi; rm -rf / | `boom` $(x)")]
        = .ok out
      ∧ runCommandInvocation out = Invocation.exec out
      ∧ out.length = [TWord.lit "bash", TWord.lit "-c", TWord.param "command"].length
      ∧ (∀ (i : Nat)
          (hi : i < [TWord.lit "bash", TWord.lit "-c", TWord.param "command"].length)
          (w : String),
          [TWord.lit "bash", TWord.lit "-c", TWord.param "command"][i] = TWord.lit w →
          out[i]? = some w)
      ∧ (∀ (i : Nat)
          (hi : i < [TWord.lit "bash", TWord.lit "-c", TWord.param "command"].length)
          (n v : String),
          [TWord.lit "bash", TWord.lit "-c", TWord.param "command"][i]
            = TWord.param n →
          [("command", PyVal.str "echo hi; rm -rf / | `boom` $(x)")].lookup n
            = some (PyVal.str v) →
          out[i]? = some v) :=
  build_command_words_one_element_per_value
    [TWord.lit "bash", TWord.lit "-c", TWord.param "command"]
    [("command", PyVal.str "echo hi; rm -rf / | `boom` $(x)")]
    (by simp)
    (by
      intro w hw
      simp only [List.mem_cons, List.not_mem_nil, or_false] at hw
      rcases hw with hw | hw | hw
      · cases hw; exact ⟨by decide, by decide⟩
      · cases hw; exact ⟨by decide, by decide⟩
      · cases hw)
    (by
      intro n hn
      simp only [List.mem_cons, List.not_mem_nil, or_false] at hn
      rcases hn with hn | hn | hn
      · cases hn
      · cases hn
      · cases hn
        exact ⟨"echo hi; rm -rf / | `boom` $(x)", rfl, Or.inl (by decide)⟩)

/-- C4 (refuted as stated): a value containing a tab — and no space and
none of the executor's listed metacharacters — is left unquoted and is
split by `shlex.split` into two argv elements, so it does not survive as
exactly one element of the executed argument vector. -/
theorem build_command_array_splits_tab_value :
    buildCommandArray [TemplatePart.lit "tool.py ", TemplatePart.param "x"]
        [("x", PyVal.str "a\tb")]
      = .ok ["tool.py", "a", "b"]
    ∧ ["tool.py", "a", "b"] ≠ ["tool.py", "a\tb"]
    ∧ needsExecutorQuote "a\tb" = false :=
  ⟨rfl, by decide, rfl⟩

end Opus
